import Mathlib

/-!
Verification of the FAT32 read-only driver (crate fat32) against its
natural-language specification.

The development shallowly embeds the Rust sources:
  src/error.rs        : the error enumeration
  src/boot_sector.rs  : boot-record model, validation and geometry
  src/directory.rs    : 32-byte directory-record decoding and predicates
  src/fat_table.rs    : FAT walking (next_cluster / cluster_chain), sector cache
  src/filesystem.rs   : navigator (paths, directory enumeration, file reads)

Machine integers are modelled as Nat with an explicit `% 2 ^ 32` wherever a
u32 computation could overflow.  The block device is modelled as a pure
function from sector index to `Except Fat32Error (List Nat)`; the Rust
`read_sector` fills a caller-supplied zeroed buffer of `bytes_per_sector`
bytes, which the model reproduces by truncating or zero-padding the bytes the
device yields to exactly that length.  Strings (paths, short names) are byte
lists, matching the byte-oriented `&str` operations the source uses.
Loops whose termination depends on on-disk data (cluster-chain walking) are
embedded with an explicit fuel argument returning `Option`; `none` means the
fuel was exhausted before the loop finished.
-/

namespace Fat32

/-- Error enumeration from src/error.rs. -/
inductive Fat32Error where
  | InvalidBootSector
  | InvalidCluster
  | InvalidPath
  | NotFound
  | NotADirectory
  | EndOfChain
  | IoError
  | BufferTooSmall
  | InvalidEntry
deriving DecidableEq

instance {ε α : Type} [DecidableEq ε] [DecidableEq α] :
    DecidableEq (Except ε α) := fun x y =>
  match x, y with
  | .error a, .error b =>
    if h : a = b then .isTrue (by rw [h])
    else .isFalse (by intro hc; injection hc; exact h (by assumption))
  | .ok a, .ok b =>
    if h : a = b then .isTrue (by rw [h])
    else .isFalse (by intro hc; injection hc; exact h (by assumption))
  | .error _, .ok _ => .isFalse (by intro hc; cases hc)
  | .ok _, .error _ => .isFalse (by intro hc; cases hc)

/-- Modulus for 32-bit unsigned wrap-around arithmetic. -/
def U32 : Nat := 4294967296

/-- Little-endian 16-bit value from two bytes of a buffer (missing bytes read as 0). -/
def le16 (l : List Nat) (i : Nat) : Nat :=
  l.getD i 0 + 256 * l.getD (i + 1) 0

/-- Little-endian 32-bit value from four bytes of a buffer (missing bytes read as 0). -/
def le32 (l : List Nat) (i : Nat) : Nat :=
  l.getD i 0 + 256 * l.getD (i + 1) 0 + 65536 * l.getD (i + 2) 0
    + 16777216 * l.getD (i + 3) 0

/-- Boot record model from src/boot_sector.rs.  Fields are the numeric values
of the corresponding `repr(C, packed)` struct fields (u8/u16/u32, stored as
Nat); layout-only fields (jump code, OEM name, labels, timestamps area) are
never read by any operation of the crate and are omitted. -/
structure BootSector where
  bytes_per_sector : Nat
  sectors_per_cluster : Nat
  reserved_sector_count : Nat
  num_fats : Nat
  total_sectors_16 : Nat
  fat_size_16 : Nat
  total_sectors_32 : Nat
  fat_size_32 : Nat
  root_cluster : Nat
  boot_signature : Nat
deriving DecidableEq

/-- BootSector::validate from src/boot_sector.rs. -/
def BootSector.validate (bs : BootSector) : Except Fat32Error Unit :=
  if bs.boot_signature ≠ 0x28 ∧ bs.boot_signature ≠ 0x29 then
    .error .InvalidBootSector
  else if bs.bytes_per_sector ≠ 512 ∧ bs.bytes_per_sector ≠ 1024
      ∧ bs.bytes_per_sector ≠ 2048 ∧ bs.bytes_per_sector ≠ 4096 then
    .error .InvalidBootSector
  else if bs.num_fats = 0 then
    .error .InvalidBootSector
  else
    .ok ()

/-- BootSector::cluster_size: bytes per sector times sectors per cluster (u32). -/
def BootSector.cluster_size (bs : BootSector) : Nat :=
  bs.bytes_per_sector * bs.sectors_per_cluster % U32

/-- BootSector::fat_size: the legacy 16-bit field when non-zero, else the 32-bit field. -/
def BootSector.fat_size (bs : BootSector) : Nat :=
  if bs.fat_size_16 ≠ 0 then bs.fat_size_16 else bs.fat_size_32

/-- BootSector::total_sectors: the legacy 16-bit field when non-zero, else the 32-bit field. -/
def BootSector.total_sectors (bs : BootSector) : Nat :=
  if bs.total_sectors_16 ≠ 0 then bs.total_sectors_16 else bs.total_sectors_32

/-- BootSector::first_data_sector = reserved sectors + FAT count × FAT size (u32). -/
def BootSector.first_data_sector (bs : BootSector) : Nat :=
  (bs.reserved_sector_count + bs.num_fats * bs.fat_size) % U32

/-- BootSector::first_fat_sector = reserved sector count. -/
def BootSector.first_fat_sector (bs : BootSector) : Nat :=
  bs.reserved_sector_count

/-- Machine ranges of the boot-record fields as decoded from disk (u16 fields
below 2 ^ 16, u8 fields below 2 ^ 8, u32 fields below 2 ^ 32). -/
def BootSector.WF (bs : BootSector) : Prop :=
  bs.bytes_per_sector < 65536 ∧ bs.sectors_per_cluster < 256
    ∧ bs.reserved_sector_count < 65536 ∧ bs.num_fats < 256
    ∧ bs.total_sectors_16 < 65536 ∧ bs.fat_size_16 < 65536
    ∧ bs.total_sectors_32 < U32 ∧ bs.fat_size_32 < U32
    ∧ bs.root_cluster < U32 ∧ bs.boot_signature < 256

instance (bs : BootSector) : Decidable bs.WF := by
  unfold BootSector.WF; infer_instance

/-- ASCII lower-casing of one byte, as u8::to_ascii_lowercase. -/
def asciiLower (b : Nat) : Nat :=
  if 0x41 ≤ b ∧ b ≤ 0x5A then b + 0x20 else b

/-- Byte-wise ASCII-case-insensitive equality, as str::eq_ignore_ascii_case. -/
def eqIgnoreAsciiCase (a b : List Nat) : Bool :=
  a.map asciiLower == b.map asciiLower

/-- Continuation-byte test for UTF-8 (0x80..=0xBF). -/
def utf8Cont (b : Nat) : Bool :=
  decide (0x80 ≤ b ∧ b ≤ 0xBF)

/-- Strict UTF-8 decoding of a byte list into scalar values, mirroring the
validation performed by core::str::from_utf8: rejects bare continuation
bytes, overlong forms, surrogate encodings and values above U+10FFFF. -/
def utf8Decode : List Nat → Option (List Nat)
  | [] => some []
  | b :: rest =>
    if b ≤ 0x7F then (utf8Decode rest).map (fun t => b :: t)
    else
      match rest with
      | [] => none
      | b2 :: rest2 =>
        if 0xC2 ≤ b ∧ b ≤ 0xDF then
          if utf8Cont b2 then
            (utf8Decode rest2).map (fun t => ((b - 0xC0) * 0x40 + (b2 - 0x80)) :: t)
          else none
        else
          match rest2 with
          | [] => none
          | b3 :: rest3 =>
            if 0xE0 ≤ b ∧ b ≤ 0xEF then
              if utf8Cont b2 ∧ utf8Cont b3
                  ∧ (b = 0xE0 → 0xA0 ≤ b2) ∧ (b = 0xED → b2 ≤ 0x9F) then
                (utf8Decode rest3).map
                  (fun t => ((b - 0xE0) * 0x1000 + (b2 - 0x80) * 0x40 + (b3 - 0x80)) :: t)
              else none
            else
              match rest3 with
              | [] => none
              | b4 :: rest4 =>
                if 0xF0 ≤ b ∧ b ≤ 0xF4 then
                  if utf8Cont b2 ∧ utf8Cont b3 ∧ utf8Cont b4
                      ∧ (b = 0xF0 → 0x90 ≤ b2) ∧ (b = 0xF4 → b2 ≤ 0x8F) then
                    (utf8Decode rest4).map
                      (fun t => ((b - 0xF0) * 0x40000 + (b2 - 0x80) * 0x1000
                        + (b3 - 0x80) * 0x40 + (b4 - 0x80)) :: t)
                  else none
                else none

/-- UTF-8 encoding of one scalar value. -/
def utf8EncodeChar (c : Nat) : List Nat :=
  if c ≤ 0x7F then [c]
  else if c ≤ 0x7FF then [0xC0 + c / 0x40, 0x80 + c % 0x40]
  else if c ≤ 0xFFFF then
    [0xE0 + c / 0x1000, 0x80 + c / 0x40 % 0x40, 0x80 + c % 0x40]
  else
    [0xF0 + c / 0x40000, 0x80 + c / 0x1000 % 0x40, 0x80 + c / 0x40 % 0x40,
      0x80 + c % 0x40]

/-- UTF-8 encoding of a scalar-value list back into bytes. -/
def utf8Encode (l : List Nat) : List Nat :=
  (l.map utf8EncodeChar).flatten

/-- Unicode White_Space property on scalar values, as char::is_whitespace. -/
def isWhitespaceCp (c : Nat) : Bool :=
  decide ((0x09 ≤ c ∧ c ≤ 0x0D) ∨ c = 0x20 ∨ c = 0x85 ∨ c = 0xA0 ∨ c = 0x1680
    ∨ (0x2000 ≤ c ∧ c ≤ 0x200A) ∨ c = 0x2028 ∨ c = 0x2029 ∨ c = 0x202F
    ∨ c = 0x205F ∨ c = 0x3000)

/-- Removal of trailing whitespace scalars, as str::trim_end. -/
def trimEndCp (l : List Nat) : List Nat :=
  (l.reverse.dropWhile isWhitespaceCp).reverse

/-- Effect of `str::from_utf8(bytes).unwrap_or("").trim_end()` viewed as bytes:
invalid UTF-8 degrades to the empty string, otherwise trailing whitespace
characters are removed. -/
def utf8TrimEnd (bytes : List Nat) : List Nat :=
  match utf8Decode bytes with
  | none => []
  | some cps => utf8Encode (trimEndCp cps)

/-- Directory record model from src/directory.rs: the fields of the 32-byte
`repr(C, packed)` struct, as numeric values (`name` keeps its 11 raw bytes). -/
structure DirectoryEntry where
  name : List Nat
  attributes : Nat
  nt_reserved : Nat
  creation_time_tenth : Nat
  creation_time : Nat
  creation_date : Nat
  last_access_date : Nat
  first_cluster_high : Nat
  write_time : Nat
  write_date : Nat
  first_cluster_low : Nat
  file_size : Nat
deriving DecidableEq

/-- DirectoryEntry::SIZE. -/
def DirectoryEntry.SIZE : Nat := 32

/-- DirectoryEntry::from_bytes: field-by-field decoding of one 32-byte record
at the offsets fixed by the packed layout. -/
def DirectoryEntry.from_bytes (b : List Nat) : DirectoryEntry where
  name := b.take 11
  attributes := b.getD 11 0
  nt_reserved := b.getD 12 0
  creation_time_tenth := b.getD 13 0
  creation_time := le16 b 14
  creation_date := le16 b 16
  last_access_date := le16 b 18
  first_cluster_high := le16 b 20
  write_time := le16 b 22
  write_date := le16 b 24
  first_cluster_low := le16 b 26
  file_size := le32 b 28

/-- FileAttributes::is_directory: bit 0x10. -/
def is_directory (attrs : Nat) : Bool :=
  attrs &&& 0x10 != 0

/-- FileAttributes::is_long_name: the low four bits all set (0x0F). -/
def is_long_name (attrs : Nat) : Bool :=
  attrs &&& 0x0F == 0x0F

/-- FileAttributes::is_volume_id: bit 0x08. -/
def is_volume_id (attrs : Nat) : Bool :=
  attrs &&& 0x08 != 0

/-- DirectoryEntry::is_free: first name byte 0xE5. -/
def DirectoryEntry.is_free (e : DirectoryEntry) : Bool :=
  e.name.getD 0 0 == 0xE5

/-- DirectoryEntry::is_end: first name byte 0x00. -/
def DirectoryEntry.is_end (e : DirectoryEntry) : Bool :=
  e.name.getD 0 0 == 0x00

/-- DirectoryEntry::is_valid: neither free nor end. -/
def DirectoryEntry.is_valid (e : DirectoryEntry) : Bool :=
  !e.is_free && !e.is_end

/-- DirectoryEntry::first_cluster = (high << 16) | low. -/
def DirectoryEntry.first_cluster (e : DirectoryEntry) : Nat :=
  e.first_cluster_high <<< 16 ||| e.first_cluster_low

/-- DirectoryEntry::short_name, as bytes: base = first 8 name bytes decoded as
UTF-8 (an invalid sequence degrades to empty) and right-trimmed, extension =
last 3 name bytes treated the same; joined with a dot only when the extension
is non-empty. -/
def DirectoryEntry.short_name (e : DirectoryEntry) : List Nat :=
  let base := utf8TrimEnd (e.name.take 8)
  let ext := utf8TrimEnd (e.name.drop 8)
  if ext = [] then base else base ++ [0x2E] ++ ext

/-- DirectoryEntry::is_dot: name starts with a dot then a space. -/
def DirectoryEntry.is_dot (e : DirectoryEntry) : Bool :=
  e.name.getD 0 0 == 0x2E && e.name.getD 1 0 == 0x20

/-- DirectoryEntry::is_dot_dot: name starts with two dots then a space. -/
def DirectoryEntry.is_dot_dot (e : DirectoryEntry) : Bool :=
  e.name.getD 0 0 == 0x2E && e.name.getD 1 0 == 0x2E && e.name.getD 2 0 == 0x20

/-- Block device model: fixed disk contents, read one sector at a time.  A
read either fails with some error kind or yields the bytes of that sector. -/
def Device : Type := Nat → Except Fat32Error (List Nat)

/-- Outcome of BlockDevice::read_sector into a zeroed buffer of `n` bytes: the
device contract fills the whole buffer, so the bytes the device yields are
truncated or zero-padded to exactly `n`. -/
def readSectorBuf (dev : Device) (n : Nat) (sector : Nat) :
    Except Fat32Error (List Nat) :=
  match dev sector with
  | .error e => .error e
  | .ok bytes => .ok (bytes.take n ++ List.replicate (n - bytes.length) 0)

/-- Classification of a masked FAT entry, the final `match` of
FatTable::next_cluster: end-of-chain range, reserved values 0 and 1, or a
plain next-cluster number. -/
def classifyFatEntry (entry : Nat) : Except Fat32Error Nat :=
  if 0x0FFFFFF8 ≤ entry ∧ entry ≤ 0x0FFFFFFF then .error .EndOfChain
  else if entry = 0 ∨ entry = 1 then .error .InvalidCluster
  else .ok entry

/-- FatTable::next_cluster with the sector cache elided: a fresh device read
of the containing FAT sector on every call.  u32 arithmetic wraps at 2 ^ 32. -/
def nextClusterPure (dev : Device) (bs : BootSector) (cluster : Nat) :
    Except Fat32Error Nat :=
  if cluster < 2 then .error .InvalidCluster
  else
    let fatOffset := cluster * 4 % U32
    let fatSector := (bs.first_fat_sector + fatOffset / bs.bytes_per_sector) % U32
    let entryOffset := fatOffset % bs.bytes_per_sector
    match readSectorBuf dev bs.bytes_per_sector fatSector with
    | .error e => .error e
    | .ok data => classifyFatEntry (le32 data entryOffset &&& 0x0FFFFFFF)

/-- Cache state of the FAT walker: at most one (sector number, sector bytes)
pair. -/
def Cache : Type := Option (Nat × List Nat)

/-- FatTable::read_fat_sector: serve from the single-slot cache on a sector
match, otherwise read from the device and replace the cache (the cache is
left unchanged when the device read fails). -/
def readFatSectorCached (dev : Device) (bs : BootSector) (cache : Cache)
    (sector : Nat) : Except Fat32Error (List Nat × Cache) :=
  match cache with
  | some (cachedSector, data) =>
    if cachedSector = sector then .ok (data, some (cachedSector, data))
    else
      match readSectorBuf dev bs.bytes_per_sector sector with
      | .error e => .error e
      | .ok buffer => .ok (buffer, some (sector, buffer))
  | none =>
    match readSectorBuf dev bs.bytes_per_sector sector with
    | .error e => .error e
    | .ok buffer => .ok (buffer, some (sector, buffer))

/-- FatTable::next_cluster as written, with the cache threaded through; on any
failure the cache keeps its previous value. -/
def nextClusterCached (dev : Device) (bs : BootSector) (cache : Cache)
    (cluster : Nat) : Except Fat32Error Nat × Cache :=
  if cluster < 2 then (.error .InvalidCluster, cache)
  else
    let fatOffset := cluster * 4 % U32
    let fatSector := (bs.first_fat_sector + fatOffset / bs.bytes_per_sector) % U32
    let entryOffset := fatOffset % bs.bytes_per_sector
    match readFatSectorCached dev bs cache fatSector with
    | .error e => (.error e, cache)
    | .ok (data, cache1) =>
      (classifyFatEntry (le32 data entryOffset &&& 0x0FFFFFFF), cache1)

/-- Results of a sequence of next_cluster calls on one FatTable value, the
cache carried from call to call. -/
def runCached (dev : Device) (bs : BootSector) :
    List Nat → Cache → List (Except Fat32Error Nat)
  | [], _ => []
  | c :: rest, cache =>
    let r := nextClusterCached dev bs cache c
    r.1 :: runCached dev bs rest r.2

/-- Cache coherence: whatever the cache holds is exactly what a fresh device
read of that sector returns. -/
def CacheOK (dev : Device) (bs : BootSector) (cache : Cache) : Prop :=
  ∀ s d, cache = some (s, d) → readSectorBuf dev bs.bytes_per_sector s = .ok d

/-- FatTable::cluster_chain, fuel-indexed: push the current cluster, then
advance via next_cluster; EndOfChain ends the loop successfully, any other
failure is returned.  `none` means the fuel ran out before the loop ended. -/
def clusterChainF (dev : Device) (bs : BootSector) :
    Nat → Nat → List Nat → Option (Except Fat32Error (List Nat))
  | 0, _, _ => none
  | fuel + 1, current, acc =>
    let acc1 := acc ++ [current]
    match nextClusterPure dev bs current with
    | .ok next => clusterChainF dev bs fuel next acc1
    | .error .EndOfChain => some (.ok acc1)
    | .error e => some (.error e)

/-- Iterated successor in the FAT: `iterNext n c` follows up to `n`
next_cluster steps from `c`; an error (EndOfChain included) absorbs. -/
def iterNext (dev : Device) (bs : BootSector) :
    Nat → Nat → Except Fat32Error Nat
  | 0, c => .ok c
  | n + 1, c =>
    match nextClusterPure dev bs c with
    | .ok next => iterNext dev bs n next
    | .error e => .error e

/-- Navigator state from src/filesystem.rs: the owned device, the validated
boot record, and the current-directory cluster. -/
structure Fat32FileSystem where
  dev : Device
  boot : BootSector
  currentDirectory : Nat

/-- Fat32FileSystem::cluster_to_sector: (cluster − 2) × sectors-per-cluster +
first data sector, in wrapping u32 arithmetic. -/
def cluster_to_sector (bs : BootSector) (cluster : Nat) : Nat :=
  ((cluster + U32 - 2) * bs.sectors_per_cluster + bs.first_data_sector) % U32

/-- Sequential sector reads of Fat32FileSystem::read_cluster: sectors
base + i for i < count, each one filling a bytes-per-sector slice of the
cluster buffer; the first failing read aborts. -/
def readSectorsFrom (dev : Device) (n base : Nat) :
    Nat → Nat → Except Fat32Error (List Nat)
  | _, 0 => .ok []
  | i, count + 1 =>
    match readSectorBuf dev n ((base + i) % U32) with
    | .error e => .error e
    | .ok d =>
      match readSectorsFrom dev n base (i + 1) count with
      | .error e => .error e
      | .ok rest => .ok (d ++ rest)

/-- Fat32FileSystem::read_cluster: the cluster's sectors concatenated. -/
def read_cluster (fs : Fat32FileSystem) (cluster : Nat) :
    Except Fat32Error (List Nat) :=
  readSectorsFrom fs.dev fs.boot.bytes_per_sector
    (cluster_to_sector fs.boot cluster) 0 fs.boot.sectors_per_cluster

/-- Exact 32-byte chunks of a buffer, as slice::chunks_exact(32): chunk i is
the 32 bytes starting at offset 32 × i, and any remainder shorter than 32
bytes is dropped. -/
def chunksExact32 (l : List Nat) : List (List Nat) :=
  (List.range (l.length / 32)).map (fun i => (l.drop (32 * i)).take 32)

/-- Push condition of the directory-enumeration loop: a valid record that is
neither a long-name nor a volume-id record. -/
def keptEntry (e : DirectoryEntry) : Bool :=
  e.is_valid && !is_long_name e.attributes && !is_volume_id e.attributes

/-- Record scan within one cluster of Fat32FileSystem::read_directory:
`Sum.inl acc` means an end record stopped the whole enumeration with the
entries collected so far, `Sum.inr acc` means the cluster was exhausted. -/
def scanChunks : List (List Nat) → List DirectoryEntry →
    Sum (List DirectoryEntry) (List DirectoryEntry)
  | [], acc => .inr acc
  | chunk :: rest, acc =>
    let e := DirectoryEntry.from_bytes chunk
    if e.is_end then .inl acc
    else if keptEntry e then scanChunks rest (acc ++ [e])
    else scanChunks rest acc

/-- Cluster loop of Fat32FileSystem::read_directory over an already-expanded
chain: read each cluster, scan its records, stop early at an end record. -/
def scanClusters (fs : Fat32FileSystem) :
    List Nat → List DirectoryEntry → Except Fat32Error (List DirectoryEntry)
  | [], acc => .ok acc
  | c :: rest, acc =>
    match read_cluster fs c with
    | .error e => .error e
    | .ok data =>
      match scanChunks (chunksExact32 data) acc with
      | .inl finished => .ok finished
      | .inr acc1 => scanClusters fs rest acc1

/-- Fat32FileSystem::read_directory, fuel-indexed through the chain walk. -/
def read_directory (fuel : Nat) (fs : Fat32FileSystem) (cluster : Nat) :
    Option (Except Fat32Error (List DirectoryEntry)) :=
  match clusterChainF fs.dev fs.boot fuel cluster [] with
  | none => none
  | some (.error e) => some (.error e)
  | some (.ok clusters) => some (scanClusters fs clusters [])

/-- Fat32FileSystem::find_parent: the first `..` record of the directory gives
the parent cluster; a recorded parent of 0 maps to the root cluster. -/
def find_parent (fuel : Nat) (fs : Fat32FileSystem) (cluster : Nat) :
    Option (Except Fat32Error Nat) :=
  match read_directory fuel fs cluster with
  | none => none
  | some (.error e) => some (.error e)
  | some (.ok entries) =>
    match entries.find? (fun e => e.is_dot_dot) with
    | some e =>
      some (.ok (if e.first_cluster = 0 then fs.boot.root_cluster
        else e.first_cluster))
    | none => some (.error .NotFound)

/-- Splitting on a byte, as str::split('/') (empty segments kept). -/
def splitSlash : List Nat → List (List Nat)
  | [] => [[]]
  | b :: rest =>
    if b = 0x2F then [] :: splitSlash rest
    else
      match splitSlash rest with
      | [] => [[b]]
      | s :: ss => (b :: s) :: ss

/-- Index of the last occurrence of a byte, as str::rfind. -/
def rfindByte : List Nat → Nat → Option Nat
  | [], _ => none
  | x :: rest, b =>
    match rfindByte rest b with
    | some i => some (i + 1)
    | none => if x = b then some 0 else none

/-- Name match of the component-lookup in Fat32FileSystem::resolve_path: a
directory-typed record, not `.` or `..`, whose short name matches the
component ASCII-case-insensitively. -/
def dirComponentMatch (comp : List Nat) (e : DirectoryEntry) : Bool :=
  is_directory e.attributes && !e.is_dot && !e.is_dot_dot
    && eqIgnoreAsciiCase e.short_name comp

/-- Component loop of Fat32FileSystem::resolve_path: empty components and `.`
are skipped, `..` goes through find_parent, anything else must match a
subdirectory record of the currently resolved directory. -/
def resolveComponents (fuel : Nat) (fs : Fat32FileSystem) :
    List (List Nat) → Nat → Option (Except Fat32Error Nat)
  | [], current => some (.ok current)
  | comp :: rest, current =>
    if comp = [] then resolveComponents fuel fs rest current
    else if comp = [0x2E] then resolveComponents fuel fs rest current
    else if comp = [0x2E, 0x2E] then
      match find_parent fuel fs current with
      | none => none
      | some (.error e) => some (.error e)
      | some (.ok parent) => resolveComponents fuel fs rest parent
    else
      match read_directory fuel fs current with
      | none => none
      | some (.error e) => some (.error e)
      | some (.ok entries) =>
        match entries.find? (dirComponentMatch comp) with
        | none => some (.error .NotFound)
        | some e => resolveComponents fuel fs rest e.first_cluster

/-- Fat32FileSystem::resolve_path: a leading slash starts at the root cluster
and is stripped, otherwise resolution starts at the current directory; an
empty remainder resolves to the starting cluster directly. -/
def resolve_path (fuel : Nat) (fs : Fat32FileSystem) (path : List Nat) :
    Option (Except Fat32Error Nat) :=
  let startRem : Nat × List Nat :=
    if path.head? = some 0x2F then (fs.boot.root_cluster, path.drop 1)
    else (fs.currentDirectory, path)
  if startRem.2 = [] then some (.ok startRem.1)
  else resolveComponents fuel fs (splitSlash startRem.2) startRem.1

/-- Fat32FileSystem::parse_path: split at the last slash into a directory part
and a leaf name; an empty directory part maps to the current directory,
otherwise the directory part goes through resolve_path. -/
def parse_path (fuel : Nat) (fs : Fat32FileSystem) (path : List Nat) :
    Option (Except Fat32Error (Nat × List Nat)) :=
  let dirName : List Nat × List Nat :=
    match rfindByte path 0x2F with
    | some pos => (path.take pos, path.drop (pos + 1))
    | none => ([], path)
  if dirName.1 = [] then some (.ok (fs.currentDirectory, dirName.2))
  else
    match resolve_path fuel fs dirName.1 with
    | none => none
    | some (.error e) => some (.error e)
    | some (.ok c) => some (.ok (c, dirName.2))

/-- Fat32FileSystem::change_dir: resolve, verify the target enumerates as a
directory, then (and only then) commit it as the current directory. -/
def change_dir (fuel : Nat) (fs : Fat32FileSystem) (path : List Nat) :
    Option (Except Fat32Error Unit × Fat32FileSystem) :=
  match resolve_path fuel fs path with
  | none => none
  | some (.error e) => some (.error e, fs)
  | some (.ok cluster) =>
    match read_directory fuel fs cluster with
    | none => none
    | some (.error e) => some (.error e, fs)
    | some (.ok _) => some (.ok (), { fs with currentDirectory := cluster })

/-- Fat32FileSystem::list_dir: resolve the optional path (current directory
when absent) and enumerate it. -/
def list_dir (fuel : Nat) (fs : Fat32FileSystem) (path? : Option (List Nat)) :
    Option (Except Fat32Error (List DirectoryEntry) × Fat32FileSystem) :=
  match path? with
  | some p =>
    match resolve_path fuel fs p with
    | none => none
    | some (.error e) => some (.error e, fs)
    | some (.ok c) => (read_directory fuel fs c).map (fun r => (r, fs))
  | none =>
    (read_directory fuel fs fs.currentDirectory).map (fun r => (r, fs))

/-- Match of the read_file lookup: a non-directory record whose short name
matches the leaf ASCII-case-insensitively. -/
def fileMatch (filename : List Nat) (e : DirectoryEntry) : Bool :=
  !is_directory e.attributes && eqIgnoreAsciiCase e.short_name filename

/-- Cluster loop of Fat32FileSystem::read_file: the raw bytes of every
cluster of the chain, concatenated in chain order. -/
def readClustersData (fs : Fat32FileSystem) :
    List Nat → Except Fat32Error (List Nat)
  | [] => .ok []
  | c :: rest =>
    match read_cluster fs c with
    | .error e => .error e
    | .ok d =>
      match readClustersData fs rest with
      | .error e => .error e
      | .ok ds => .ok (d ++ ds)

/-- Fat32FileSystem::read_file: parse the path, enumerate the containing
directory, find the matching non-directory entry (NotFound otherwise); a
zero-size entry yields an empty result at once, otherwise the entry's chain
is walked and the concatenated bytes are truncated to the recorded size. -/
def read_file (fuel : Nat) (fs : Fat32FileSystem) (path : List Nat) :
    Option (Except Fat32Error (List Nat) × Fat32FileSystem) :=
  match parse_path fuel fs path with
  | none => none
  | some (.error e) => some (.error e, fs)
  | some (.ok (dirCluster, filename)) =>
    match read_directory fuel fs dirCluster with
    | none => none
    | some (.error e) => some (.error e, fs)
    | some (.ok entries) =>
      match entries.find? (fileMatch filename) with
      | none => some (.error .NotFound, fs)
      | some entry =>
        if entry.file_size = 0 then some (.ok [], fs)
        else
          match clusterChainF fs.dev fs.boot fuel entry.first_cluster [] with
          | none => none
          | some (.error e) => some (.error e, fs)
          | some (.ok clusters) =>
            match readClustersData fs clusters with
            | .error e => some (.error e, fs)
            | .ok data => some (.ok (data.take entry.file_size), fs)

/-- Spec-side record stream of a directory: every 32-byte record of every
cluster of the chain, decoded, in order. -/
def allRecords (datas : List (List Nat)) : List DirectoryEntry :=
  (datas.map (fun d => (chunksExact32 d).map DirectoryEntry.from_bytes)).flatten

/-- Spec-side directory enumeration, following the words of the spec: keep
the records strictly before the first end record, then drop free, long-name
and volume-id records. -/
def dirScanSpec (recs : List DirectoryEntry) : List DirectoryEntry :=
  (recs.takeWhile (fun e => !e.is_end)).filter keptEntry

/-- Spec-side flat view of the FAT region: byte `i` of the FAT lives in
sector first_fat_sector + i / bytes_per_sector at in-sector offset
i % bytes_per_sector. -/
def fatRegionByte (dev : Device) (bs : BootSector) (i : Nat) :
    Except Fat32Error Nat :=
  match readSectorBuf dev bs.bytes_per_sector
      (bs.first_fat_sector + i / bs.bytes_per_sector) with
  | .error e => .error e
  | .ok d => .ok (d.getD (i % bs.bytes_per_sector) 0)

/-- Spec-side FAT entry of a cluster: the 32-bit little-endian value at byte
offset cluster × 4 of the FAT region, masked to its low 28 bits. -/
def fatEntrySpec (dev : Device) (bs : BootSector) (cluster : Nat) :
    Except Fat32Error Nat := do
  let b0 ← fatRegionByte dev bs (cluster * 4)
  let b1 ← fatRegionByte dev bs (cluster * 4 + 1)
  let b2 ← fatRegionByte dev bs (cluster * 4 + 2)
  let b3 ← fatRegionByte dev bs (cluster * 4 + 3)
  pure ((b0 + 256 * b1 + 65536 * b2 + 16777216 * b3) &&& 0x0FFFFFFF)

/-- Classification of a masked FAT entry in the order the claim words it:
masked value 0 or 1 is InvalidCluster, a masked value in
[0x0FFFFFF8, 0x0FFFFFFF] is EndOfChain, anything else is the next cluster,
unmodified. -/
def classifyFatEntryClaim (v : Nat) : Except Fat32Error Nat :=
  if v = 0 ∨ v = 1 then .error .InvalidCluster
  else if 0x0FFFFFF8 ≤ v ∧ v ≤ 0x0FFFFFFF then .error .EndOfChain
  else .ok v

/-!  Concrete volume used by the witnesses: 512-byte sectors, one sector per
cluster, one reserved sector, a single one-sector FAT, so data cluster c
occupies sector c.  Cluster 2 is the root directory (subdirectory DOCS at
cluster 5, file A.TXT of size 10 at cluster 6), cluster 5 is DOCS (whose `..`
record stores parent cluster 0, the root back-reference convention), cluster
6 holds the ten content bytes of A.TXT. -/

/-- FAT sector of the concrete volume: entries 2, 5 and 6 are end-of-chain. -/
def fatSectorW : List Nat :=
  [0, 0, 0, 0, 0, 0, 0, 0, 0xFF, 0xFF, 0xFF, 0x0F, 0, 0, 0, 0, 0, 0, 0, 0,
    0xFF, 0xFF, 0xFF, 0x0F, 0xFF, 0xFF, 0xFF, 0x0F]

/-- Raw 32-byte directory record with the given name bytes, attribute byte,
first-cluster halves and file size. -/
def mkDirEnt (name : List Nat) (attr hi lo size : Nat) : List Nat :=
  name ++ [attr] ++ List.replicate 8 0 ++ [hi % 256, hi / 256]
    ++ List.replicate 4 0 ++ [lo % 256, lo / 256]
    ++ [size % 256, size / 256 % 256, size / 65536 % 256, size / 16777216 % 256]

/-- Name field DOCS (no extension). -/
def nameDOCS : List Nat := [0x44, 0x4F, 0x43, 0x53] ++ List.replicate 7 0x20

/-- Name field of the file A.TXT. -/
def nameATXT : List Nat := [0x41] ++ List.replicate 7 0x20 ++ [0x54, 0x58, 0x54]

/-- Root directory cluster: DOCS (directory, cluster 5), A.TXT (file, cluster
6, 10 bytes), then the end record (all further bytes are zero). -/
def rootDirW : List Nat :=
  mkDirEnt nameDOCS 0x10 0 5 0 ++ mkDirEnt nameATXT 0x20 0 6 10

/-- DOCS directory cluster: the `.` record (cluster 5) and the `..` record
with recorded parent cluster 0, then the end record. -/
def docsDirW : List Nat :=
  mkDirEnt ([0x2E] ++ List.replicate 10 0x20) 0x10 0 5 0
    ++ mkDirEnt ([0x2E, 0x2E] ++ List.replicate 9 0x20) 0x10 0 0 0

/-- Content bytes of A.TXT. -/
def dataW : List Nat :=
  [0x48, 0x45, 0x4C, 0x4C, 0x4F, 0x57, 0x4F, 0x52, 0x4C, 0x44]

/-- Concrete device: sector 1 is the FAT, sectors 2, 5, 6 the data clusters,
every other sector reads as zeros. -/
def devW : Device := fun s =>
  if s = 1 then .ok fatSectorW
  else if s = 2 then .ok rootDirW
  else if s = 5 then .ok docsDirW
  else if s = 6 then .ok dataW
  else .ok []

/-- Concrete boot record of the witness volume. -/
def bsW : BootSector :=
  { bytes_per_sector := 512, sectors_per_cluster := 1,
    reserved_sector_count := 1, num_fats := 1, total_sectors_16 := 0,
    fat_size_16 := 1, total_sectors_32 := 0, fat_size_32 := 0,
    root_cluster := 2, boot_signature := 0x29 }

/-- Witness filesystem with the current directory at the root (cluster 2). -/
def fsW : Fat32FileSystem := { dev := devW, boot := bsW, currentDirectory := 2 }

/-- Witness filesystem with the current directory moved to DOCS (cluster 5). -/
def fsW5 : Fat32FileSystem :=
  { dev := devW, boot := bsW, currentDirectory := 5 }

/-- Path bytes of A.TXT. -/
def pATXT : List Nat := [0x41, 0x2E, 0x54, 0x58, 0x54]

/-- Path bytes of /A.TXT. -/
def pSlashATXT : List Nat := 0x2F :: pATXT

/-- Path bytes of the absent name Z. -/
def pZ : List Nat := [0x5A]

/-! ## Theorems -/

/-- C8: validate() succeeds exactly on the boot records whose signature byte
is 0x28 or 0x29, whose bytes-per-sector is 512, 1024, 2048 or 4096 and whose
FAT count is at least 1, and fails with InvalidBootSector on every boot
record violating at least one of these three invariants. -/
theorem validate_spec (bs : BootSector) :
    (bs.validate = .ok () ↔
      ((bs.boot_signature = 0x28 ∨ bs.boot_signature = 0x29)
        ∧ (bs.bytes_per_sector = 512 ∨ bs.bytes_per_sector = 1024
            ∨ bs.bytes_per_sector = 2048 ∨ bs.bytes_per_sector = 4096)
        ∧ 1 ≤ bs.num_fats))
    ∧ (bs.validate = .error .InvalidBootSector ↔
      ¬ ((bs.boot_signature = 0x28 ∨ bs.boot_signature = 0x29)
        ∧ (bs.bytes_per_sector = 512 ∨ bs.bytes_per_sector = 1024
            ∨ bs.bytes_per_sector = 2048 ∨ bs.bytes_per_sector = 4096)
        ∧ 1 ≤ bs.num_fats)) := by
  unfold BootSector.validate
  split_ifs with h1 h2 h3 <;> (simp_all; try omega)

/-- Coherent single-slot cache service: given a coherent cache, the cached
FAT-sector read returns exactly what a fresh device read returns, and the
cache it leaves behind holds that sector's true contents. -/
theorem readFatSectorCached_eq (dev : Device) (bs : BootSector) (cache : Cache)
    (s : Nat) (hc : CacheOK dev bs cache) :
    readFatSectorCached dev bs cache s =
      (readSectorBuf dev bs.bytes_per_sector s).map (fun d => (d, some (s, d))) := by
  unfold readFatSectorCached
  cases cache with
  | none =>
    cases readSectorBuf dev bs.bytes_per_sector s with
    | error e => rfl
    | ok d => rfl
  | some p =>
    obtain ⟨cs, data⟩ := p
    by_cases h : cs = s
    · subst h
      rw [hc cs data rfl]
      simp only [if_pos rfl]
      rfl
    · simp only [if_neg h]
      cases readSectorBuf dev bs.bytes_per_sector s with
      | error e => rfl
      | ok d => rfl

/-- One cached next_cluster call returns the same result as the cache-free
variant and keeps the cache coherent. -/
theorem nextClusterCached_eq (dev : Device) (bs : BootSector) (cache : Cache)
    (c : Nat) (hc : CacheOK dev bs cache) :
    (nextClusterCached dev bs cache c).1 = nextClusterPure dev bs c
      ∧ CacheOK dev bs (nextClusterCached dev bs cache c).2 := by
  unfold nextClusterCached nextClusterPure
  by_cases h2 : c < 2
  · simp only [if_pos h2]
    exact ⟨trivial, hc⟩
  · simp only [if_neg h2]
    rw [readFatSectorCached_eq dev bs cache _ hc]
    cases hread : readSectorBuf dev bs.bytes_per_sector
        ((bs.first_fat_sector + c * 4 % U32 / bs.bytes_per_sector) % U32) with
    | error e =>
      simp only [Except.map]
      exact ⟨trivial, hc⟩
    | ok d =>
      simp only [Except.map]
      refine ⟨trivial, ?_⟩
      intro s d1 hsd
      injection hsd with h
      cases h
      exact hread

/-- C10: the FAT walker's single-slot sector cache is semantically
transparent.  For a fixed device, any sequence of next_cluster calls on one
FatTable value (cache threaded from call to call, starting empty) returns
call by call exactly what the cache-free variant returns; the cache never
changes a returned value. -/
theorem fat_cache_transparent (dev : Device) (bs : BootSector)
    (calls : List Nat) :
    runCached dev bs calls none = calls.map (nextClusterPure dev bs) := by
  have main : ∀ (l : List Nat) (cache : Cache), CacheOK dev bs cache →
      runCached dev bs l cache = l.map (nextClusterPure dev bs) := by
    intro l
    induction l with
    | nil => intro cache _; rfl
    | cons c rest ih =>
      intro cache hc
      obtain ⟨h1, h2⟩ := nextClusterCached_eq dev bs cache c hc
      show (nextClusterCached dev bs cache c).1
          :: runCached dev bs rest (nextClusterCached dev bs cache c).2
        = nextClusterPure dev bs c :: rest.map (nextClusterPure dev bs)
      rw [h1, ih _ h2]
  exact main calls none (by intro s d h; cases h)

/-- Helper: the two orders of the FAT-entry classification tests agree, the
reserved-value range and the end-of-chain range being disjoint. -/
theorem classify_agree (v : Nat) : classifyFatEntry v = classifyFatEntryClaim v := by
  unfold classifyFatEntry classifyFatEntryClaim
  split_ifs <;> first | rfl | omega

/-- Helper: when the divisor is a multiple of 4 and the dividend is a multiple
of 4, adding k < 4 changes neither the quotient nor the sector-relative
offset beyond k itself (a 4-byte FAT entry never straddles a sector). -/
theorem div_mod_step (a k n : Nat) (hd : 4 ∣ n) (h4 : 4 ∣ a) (hk : k < 4) :
    (a + k) / n = a / n ∧ (a + k) % n = a % n + k := by
  obtain ⟨t, rfl⟩ := hd
  obtain ⟨m, rfl⟩ := h4
  rcases Nat.eq_zero_or_pos t with rfl | ht
  · simp
  · have hr : 4 * m % (4 * t) = 4 * (m % t) := Nat.mul_mod_mul_left 4 m t
    have hs : 4 * (m % t) + k < 4 * t := by
      have := Nat.mod_lt m ht
      omega
    have hsplit : 4 * m + k = 4 * t * (4 * m / (4 * t)) + (4 * (m % t) + k) := by
      conv_lhs => rw [← Nat.div_add_mod (4 * m) (4 * t)]
      rw [hr, Nat.add_assoc]
    constructor
    · rw [hsplit, Nat.mul_add_div (by omega), Nat.div_eq_of_lt hs]
      omega
    · rw [hsplit, Nat.mul_add_mod, Nat.mod_eq_of_lt hs, hr]

/-- C1: for every cluster number of the 28-bit FAT32 cluster space with
cluster ≥ 2, next_cluster reads the 32-bit little-endian FAT entry at byte
offset cluster × 4 of the FAT region, masks it to its low 28 bits and
classifies it — masked value 0 or 1 gives InvalidCluster, a masked value in
[0x0FFFFFF8, 0x0FFFFFFF] gives EndOfChain, and any other masked value is
returned unmodified; for every cluster number below 2 it fails with
InvalidCluster without touching the device.  The boot record is assumed
validated (next_cluster is only reachable through a mounted filesystem) with
its u16 reserved-sector field in machine range. -/
theorem next_cluster_spec (dev : Device) (bs : BootSector) (cluster : Nat)
    (hv : bs.validate = .ok ()) (hres : bs.reserved_sector_count < 65536) :
    (2 ≤ cluster → cluster < 268435456 →
      nextClusterPure dev bs cluster =
        match fatEntrySpec dev bs cluster with
        | .error e => .error e
        | .ok v => classifyFatEntryClaim v)
    ∧ (cluster < 2 → nextClusterPure dev bs cluster = .error .InvalidCluster) := by
  constructor
  · intro h2 h28
    have hbps : bs.bytes_per_sector = 512 ∨ bs.bytes_per_sector = 1024
        ∨ bs.bytes_per_sector = 2048 ∨ bs.bytes_per_sector = 4096 := by
      unfold BootSector.validate at hv
      split_ifs at hv with a b c
      all_goals simp at hv
      tauto
    have hdvd : 4 ∣ bs.bytes_per_sector := by
      rcases hbps with h | h | h | h <;> rw [h] <;> omega
    have e0 : cluster * 4 % U32 = cluster * 4 := by unfold U32; omega
    have h4c : (4 : Nat) ∣ cluster * 4 := ⟨cluster, by ring⟩
    obtain ⟨dd1, mm1⟩ :=
      div_mod_step (cluster * 4) 1 bs.bytes_per_sector hdvd h4c (by omega)
    obtain ⟨dd2, mm2⟩ :=
      div_mod_step (cluster * 4) 2 bs.bytes_per_sector hdvd h4c (by omega)
    obtain ⟨dd3, mm3⟩ :=
      div_mod_step (cluster * 4) 3 bs.bytes_per_sector hdvd h4c (by omega)
    have sfull : (bs.reserved_sector_count + cluster * 4 / bs.bytes_per_sector) % U32
        = bs.reserved_sector_count + cluster * 4 / bs.bytes_per_sector := by
      refine Nat.mod_eq_of_lt ?_
      have hle := Nat.div_le_self (cluster * 4) bs.bytes_per_sector
      unfold U32
      omega
    simp only [nextClusterPure, fatEntrySpec, fatRegionByte,
      BootSector.first_fat_sector, e0, if_neg (by omega : ¬ cluster < 2)]
    rw [dd1, dd2, dd3, mm1, mm2, mm3, sfull]
    cases hread : readSectorBuf dev bs.bytes_per_sector
        (bs.reserved_sector_count + cluster * 4 / bs.bytes_per_sector) with
    | error e => rfl
    | ok d =>
      simp only [bind, Except.bind, pure, Except.pure, le32]
      rw [classify_agree]
  · intro h
    unfold nextClusterPure
    rw [if_pos h]

/-- Witness for next_cluster_spec on the concrete volume: the boot record
validates, its reserved-sector field is in u16 range, and next_cluster at
cluster 2 (whose masked FAT entry is 0x0FFFFFFF) classifies as EndOfChain. -/
theorem next_cluster_spec_wit :
    bsW.validate = .ok () ∧ bsW.reserved_sector_count < 65536
      ∧ nextClusterPure devW bsW 2 = .error .EndOfChain := by
  refine ⟨by decide, by decide, ?_⟩
  have h := (next_cluster_spec devW bsW 2 (by decide) (by decide)).1
    (by omega) (by omega)
  rw [h]
  decide

/-- Helper: a successful chain expansion always extends the accumulator with
the starting cluster first. -/
theorem chain_head_aux (dev : Device) (bs : BootSector) :
    ∀ (fuel c : Nat) (acc chain : List Nat),
      clusterChainF dev bs fuel c acc = some (.ok chain) →
      ∃ t, chain = acc ++ c :: t := by
  intro fuel
  induction fuel with
  | zero =>
    intro c acc chain h
    cases h
  | succ n ih =>
    intro c acc chain h
    unfold clusterChainF at h
    cases hn : nextClusterPure dev bs c with
    | ok next =>
      rw [hn] at h
      obtain ⟨t, ht⟩ := ih next (acc ++ [c]) chain h
      refine ⟨next :: t, ?_⟩
      simpa using ht
    | error e =>
      rw [hn] at h
      cases e <;> simp at h
      refine ⟨[], ?_⟩
      simp [← h]

/-- Helper: the chain loop never returns EndOfChain — that error is consumed
as the loop's successful terminator. -/
theorem chain_no_eoc_aux (dev : Device) (bs : BootSector) :
    ∀ (fuel c : Nat) (acc : List Nat),
      clusterChainF dev bs fuel c acc ≠ some (.error .EndOfChain) := by
  intro fuel
  induction fuel with
  | zero =>
    intro c acc h
    cases h
  | succ n ih =>
    intro c acc h
    unfold clusterChainF at h
    cases hn : nextClusterPure dev bs c with
    | ok next =>
      rw [hn] at h
      exact ih next (acc ++ [c]) h
    | error e =>
      rw [hn] at h
      cases e <;> simp at h

/-- Helper: when iterating next_cluster from c reaches the end-of-chain range
within n steps, the chain loop with fuel n + 1 terminates successfully and
returns the accumulator extended with c first. -/
theorem chain_of_iter_eoc (dev : Device) (bs : BootSector) :
    ∀ (n c : Nat) (acc : List Nat),
      iterNext dev bs n c = .error .EndOfChain →
      ∃ t, clusterChainF dev bs (n + 1) c acc = some (.ok (acc ++ c :: t)) := by
  intro n
  induction n with
  | zero =>
    intro c acc h
    cases h
  | succ m ih =>
    intro c acc h
    unfold iterNext at h
    cases hn : nextClusterPure dev bs c with
    | ok next =>
      rw [hn] at h
      obtain ⟨t, ht⟩ := ih next (acc ++ [c]) h
      refine ⟨next :: t, ?_⟩
      show clusterChainF dev bs (m + 1 + 1) c acc = _
      unfold clusterChainF
      rw [hn]
      show clusterChainF dev bs (m + 1) next (acc ++ [c]) = _
      rw [ht]
      simp
    | error e =>
      rw [hn] at h
      injection h with h1
      subst h1
      refine ⟨[], ?_⟩
      show clusterChainF dev bs (m + 1 + 1) c acc = _
      unfold clusterChainF
      rw [hn]

/-- Helper: when iterating next_cluster from c hits a non-EndOfChain error
within n steps, the chain loop with fuel n + 1 propagates that error. -/
theorem chain_of_iter_err (dev : Device) (bs : BootSector) :
    ∀ (n c : Nat) (acc : List Nat) (e : Fat32Error), e ≠ .EndOfChain →
      iterNext dev bs n c = .error e →
      clusterChainF dev bs (n + 1) c acc = some (.error e) := by
  intro n
  induction n with
  | zero =>
    intro c acc e hne h
    cases h
  | succ m ih =>
    intro c acc e hne h
    unfold iterNext at h
    cases hn : nextClusterPure dev bs c with
    | ok next =>
      rw [hn] at h
      have := ih next (acc ++ [c]) e hne h
      show clusterChainF dev bs (m + 1 + 1) c acc = _
      unfold clusterChainF
      rw [hn]
      exact this
    | error e1 =>
      rw [hn] at h
      injection h with h1
      subst h1
      show clusterChainF dev bs (m + 1 + 1) c acc = _
      unfold clusterChainF
      rw [hn]
      cases e1 <;> simp_all

/-- C2: cluster_chain(start) always has start as the first element of a
successful result; whenever every entry reachable from start lands in the
end-of-chain range within n next_cluster steps, the loop terminates within
fuel n + 1 and returns the ordered chain successfully; EndOfChain never
surfaces as cluster_chain's own error; any other next_cluster failure is
propagated as the result. -/
theorem cluster_chain_spec (dev : Device) (bs : BootSector) (start n : Nat) :
    (∀ fuel chain, clusterChainF dev bs fuel start [] = some (.ok chain) →
        chain.head? = some start)
    ∧ (iterNext dev bs n start = .error .EndOfChain →
        ∃ chain, clusterChainF dev bs (n + 1) start [] = some (.ok chain)
          ∧ chain.head? = some start)
    ∧ (∀ fuel, clusterChainF dev bs fuel start [] ≠ some (.error .EndOfChain))
    ∧ (∀ e, e ≠ .EndOfChain → iterNext dev bs n start = .error e →
        clusterChainF dev bs (n + 1) start [] = some (.error e)) := by
  refine ⟨?_, ?_, ?_, ?_⟩
  · intro fuel chain h
    obtain ⟨t, ht⟩ := chain_head_aux dev bs fuel start [] chain h
    rw [ht]
    rfl
  · intro h
    obtain ⟨t, ht⟩ := chain_of_iter_eoc dev bs n start [] h
    refine ⟨start :: t, ?_, rfl⟩
    simpa using ht
  · intro fuel
    exact chain_no_eoc_aux dev bs fuel start []
  · intro e hne h
    exact chain_of_iter_err dev bs n start [] e hne h

/-- Witness for cluster_chain_spec on the concrete volume: from cluster 2 the
FAT reaches end-of-chain in one step, and the chain [2] is returned with 2
first. -/
theorem cluster_chain_spec_wit :
    iterNext devW bsW 1 2 = .error .EndOfChain
      ∧ ∃ chain, clusterChainF devW bsW 2 2 [] = some (.ok chain)
          ∧ chain.head? = some 2 := by
  refine ⟨by decide, ?_⟩
  exact (cluster_chain_spec devW bsW 2 1).2.1 (by decide)

/-- Helper: the in-cluster record scan either stops at an end record
(Sum.inl) or exhausts the cluster (Sum.inr); in both cases the collected
entries are the spec-side scan of the record stream appended to the
accumulator. -/
theorem scanChunks_eq (chunks : List (List Nat)) (acc : List DirectoryEntry) :
    scanChunks chunks acc =
      if (chunks.map DirectoryEntry.from_bytes).any (fun e => e.is_end)
      then .inl (acc ++ dirScanSpec (chunks.map DirectoryEntry.from_bytes))
      else .inr (acc ++ dirScanSpec (chunks.map DirectoryEntry.from_bytes)) := by
  induction chunks generalizing acc with
  | nil => simp [scanChunks, dirScanSpec]
  | cons c rest ih =>
    cases he : (DirectoryEntry.from_bytes c).is_end with
    | true => simp [scanChunks, dirScanSpec, he]
    | false =>
      cases hk : keptEntry (DirectoryEntry.from_bytes c) with
      | true =>
        rw [show scanChunks (c :: rest) acc
            = scanChunks rest (acc ++ [DirectoryEntry.from_bytes c]) from by
          simp [scanChunks, he, hk]]
        rw [ih]
        by_cases h :
            ((rest.map DirectoryEntry.from_bytes).any (fun e => e.is_end)) = true
        · simp [h, dirScanSpec, he, hk, List.takeWhile_cons, List.filter_cons]
        · simp [h, dirScanSpec, he, hk, List.takeWhile_cons, List.filter_cons]
      | false =>
        rw [show scanChunks (c :: rest) acc = scanChunks rest acc from by
          simp [scanChunks, he, hk]]
        rw [ih]
        by_cases h :
            ((rest.map DirectoryEntry.from_bytes).any (fun e => e.is_end)) = true
        · simp [h, dirScanSpec, he, hk, List.takeWhile_cons, List.filter_cons]
        · simp [h, dirScanSpec, he, hk, List.takeWhile_cons, List.filter_cons]

/-- Spec-side packaging of the data of a list of clusters: the bytes of every
cluster, failing as read_cluster would on the first failing cluster. -/
def readClusterList (fs : Fat32FileSystem) :
    List Nat → Except Fat32Error (List (List Nat))
  | [] => .ok []
  | c :: rest =>
    match read_cluster fs c with
    | .error e => .error e
    | .ok d =>
      match readClusterList fs rest with
      | .error e => .error e
      | .ok ds => .ok (d :: ds)

/-- Helper: records past a stream that contains an end record never
contribute to the spec-side scan. -/
theorem dirScanSpec_append_end (l1 l2 : List DirectoryEntry)
    (h : (l1.any (fun e => e.is_end)) = true) :
    dirScanSpec (l1 ++ l2) = dirScanSpec l1 := by
  induction l1 with
  | nil => simp at h
  | cons e t ih =>
    cases he : e.is_end with
    | true => simp [dirScanSpec, List.takeWhile_cons, he]
    | false =>
      simp only [List.any_cons, he, Bool.false_or] at h
      simp [dirScanSpec, List.takeWhile_cons, he, List.filter_cons]
      have := ih h
      simp [dirScanSpec] at this
      simp [this]

/-- Helper: the spec-side scan distributes over an end-free prefix. -/
theorem dirScanSpec_append_no_end (l1 l2 : List DirectoryEntry)
    (h : (l1.any (fun e => e.is_end)) = false) :
    dirScanSpec (l1 ++ l2) = l1.filter keptEntry ++ dirScanSpec l2 := by
  induction l1 with
  | nil => simp
  | cons e t ih =>
    simp only [List.any_cons, Bool.or_eq_false_iff] at h
    obtain ⟨he, ht⟩ := h
    have := ih ht
    simp [dirScanSpec, List.takeWhile_cons, he, List.filter_cons] at this ⊢
    by_cases hk : keptEntry e = true
    · simp [hk, this]
    · simp [hk, this]

/-- Helper: on an end-free stream the spec-side scan is a plain filter. -/
theorem dirScanSpec_no_end (l : List DirectoryEntry)
    (h : (l.any (fun e => e.is_end)) = false) :
    dirScanSpec l = l.filter keptEntry := by
  have h2 := dirScanSpec_append_no_end l [] h
  simpa [dirScanSpec] using h2

/-- Helper: over readable clusters, the enumeration loop with its early stop
computes exactly the spec-side scan of the concatenated record stream. -/
theorem scanClusters_eq (fs : Fat32FileSystem) :
    ∀ (clusters : List Nat) (datas : List (List Nat)) (acc : List DirectoryEntry),
      readClusterList fs clusters = .ok datas →
      scanClusters fs clusters acc = .ok (acc ++ dirScanSpec (allRecords datas)) := by
  intro clusters
  induction clusters with
  | nil =>
    intro datas acc h
    injection h with h1
    subst h1
    simp [scanClusters, allRecords, dirScanSpec]
  | cons c rest ih =>
    intro datas acc h
    unfold readClusterList at h
    cases hr : read_cluster fs c with
    | error e => rw [hr] at h; cases h
    | ok d =>
      rw [hr] at h
      cases hl : readClusterList fs rest with
      | error e => rw [hl] at h; cases h
      | ok ds =>
        rw [hl] at h
        injection h with h1
        subst h1
        unfold scanClusters
        rw [hr]
        show (match scanChunks (chunksExact32 d) acc with
          | Sum.inl finished => Except.ok finished
          | Sum.inr acc1 => scanClusters fs rest acc1)
          = Except.ok (acc ++ dirScanSpec (allRecords (d :: ds)))
        rw [scanChunks_eq]
        have h2 : allRecords (d :: ds)
            = (chunksExact32 d).map DirectoryEntry.from_bytes ++ allRecords ds := by
          simp [allRecords]
        by_cases hend :
            (((chunksExact32 d).map DirectoryEntry.from_bytes).any
              (fun e => e.is_end)) = true
        · rw [if_pos hend]
          rw [h2, dirScanSpec_append_end _ _ hend]
        · rw [if_neg hend]
          show scanClusters fs rest
              (acc ++ dirScanSpec ((chunksExact32 d).map DirectoryEntry.from_bytes))
            = Except.ok (acc ++ dirScanSpec (allRecords (d :: ds)))
          rw [ih ds (acc ++ dirScanSpec ((chunksExact32 d).map DirectoryEntry.from_bytes)) hl]
          rw [h2, dirScanSpec_append_no_end _ _ (by simpa using hend),
            dirScanSpec_no_end _ (by simpa using hend)]
          simp

/-- Root directory cluster bytes as read through the device model. -/
def rootClusterBytesW : List Nat := rootDirW ++ List.replicate 448 0

/-- C3: read_directory decodes sequential 32-byte records from the
directory's cluster chain and returns the records strictly before the first
end record, with free, long-name and volume-id records dropped but not
stopping enumeration — records after the first end record (same or later
clusters) never appear; in particular a directory whose very first record is
an end record enumerates as the empty list, not an error; and list_dir with
no path is read_directory of the current directory. -/
theorem read_directory_spec (fuel : Nat) (fs : Fat32FileSystem) (cluster : Nat)
    (clusters : List Nat) (datas : List (List Nat))
    (hchain : clusterChainF fs.dev fs.boot fuel cluster [] = some (.ok clusters))
    (hdatas : readClusterList fs clusters = .ok datas) :
    read_directory fuel fs cluster = some (.ok (dirScanSpec (allRecords datas)))
    ∧ (∀ e0 t, allRecords datas = e0 :: t → e0.is_end = true →
        read_directory fuel fs cluster = some (.ok []))
    ∧ list_dir fuel fs none
        = (read_directory fuel fs fs.currentDirectory).map (fun r => (r, fs)) := by
  have hmain : read_directory fuel fs cluster
      = some (.ok (dirScanSpec (allRecords datas))) := by
    unfold read_directory
    rw [hchain]
    show some (scanClusters fs clusters [])
      = some (.ok (dirScanSpec (allRecords datas)))
    rw [scanClusters_eq fs clusters datas [] hdatas]
    simp
  refine ⟨hmain, ?_, rfl⟩
  intro e0 t h he
  rw [hmain, h]
  simp [dirScanSpec, List.takeWhile_cons, he]

set_option maxRecDepth 100000 in
/-- Witness for read_directory_spec on the concrete volume: the root chain is
[2], its cluster bytes read back, and read_directory returns the spec-side
scan of the decoded records. -/
theorem read_directory_spec_wit :
    clusterChainF devW bsW 2 2 [] = some (.ok [2])
      ∧ readClusterList fsW [2] = .ok [rootClusterBytesW]
      ∧ read_directory 2 fsW 2
          = some (.ok (dirScanSpec (allRecords [rootClusterBytesW]))) := by
  refine ⟨by decide, by decide, ?_⟩
  exact (read_directory_spec 2 fsW 2 [2] [rootClusterBytesW]
    (by decide) (by decide)).1

/-- Decoded `.` record of the DOCS directory of the concrete volume. -/
def dotEntryW : DirectoryEntry :=
  DirectoryEntry.from_bytes (mkDirEnt ([0x2E] ++ List.replicate 10 0x20) 0x10 0 5 0)

/-- Decoded `..` record of the DOCS directory of the concrete volume. -/
def dotdotEntryW : DirectoryEntry :=
  DirectoryEntry.from_bytes (mkDirEnt ([0x2E, 0x2E] ++ List.replicate 9 0x20) 0x10 0 0 0)

/-- C7 claim theorem. -/
theorem find_parent_spec (fuel : Nat) (fs : Fat32FileSystem) (cluster : Nat)
    (entries : List DirectoryEntry) (e : DirectoryEntry)
    (hdir : read_directory fuel fs cluster = some (.ok entries))
    (hfind : entries.find? (fun x => x.is_dot_dot) = some e) :
    find_parent fuel fs cluster
      = some (.ok (if e.first_cluster = 0 then fs.boot.root_cluster
          else e.first_cluster))
    ∧ (∀ (rest : List (List Nat)) (current : Nat),
        resolveComponents fuel fs ([0x2E, 0x2E] :: rest) current
          = match find_parent fuel fs current with
            | none => none
            | some (.error err) => some (.error err)
            | some (.ok parent) => resolveComponents fuel fs rest parent) := by
  constructor
  · unfold find_parent
    rw [hdir]
    show (match entries.find? (fun x => x.is_dot_dot) with
      | some e => some (Except.ok (if e.first_cluster = 0 then fs.boot.root_cluster
          else e.first_cluster))
      | none => some (Except.error Fat32Error.NotFound)) = _
    rw [hfind]
  · intro rest current
    rfl

set_option maxRecDepth 100000 in
/-- C7 witness. -/
theorem find_parent_spec_wit :
    read_directory 2 fsW 5 = some (.ok [dotEntryW, dotdotEntryW])
      ∧ [dotEntryW, dotdotEntryW].find? (fun x => x.is_dot_dot) = some dotdotEntryW
      ∧ dotdotEntryW.first_cluster = 0
      ∧ find_parent 2 fsW 5 = some (.ok 2) := by
  refine ⟨by decide, by decide, by decide, ?_⟩
  exact ((find_parent_spec 2 fsW 5 [dotEntryW, dotdotEntryW] dotdotEntryW
    (by decide) (by decide)).1).trans (by decide)

/-- Decoded DOCS record of the root directory of the concrete volume. -/
def docsEntryW : DirectoryEntry :=
  DirectoryEntry.from_bytes (mkDirEnt nameDOCS 0x10 0 5 0)

/-- Decoded A.TXT record of the root directory of the concrete volume. -/
def atxtEntryW : DirectoryEntry :=
  DirectoryEntry.from_bytes (mkDirEnt nameATXT 0x20 0 6 10)

/-- Data cluster bytes of A.TXT as read through the device model. -/
def dataClusterBytesW : List Nat := dataW ++ List.replicate 502 0

/-- Helper: the file-read loop concatenates exactly the clusters' bytes. -/
theorem readClustersData_eq (fs : Fat32FileSystem) :
    ∀ (clusters : List Nat) (datas : List (List Nat)),
      readClusterList fs clusters = .ok datas →
      readClustersData fs clusters = .ok datas.flatten := by
  intro clusters
  induction clusters with
  | nil =>
    intro datas h
    injection h with h1
    subst h1
    rfl
  | cons c rest ih =>
    intro datas h
    unfold readClusterList at h
    cases hr : read_cluster fs c with
    | error e => rw [hr] at h; cases h
    | ok d =>
      rw [hr] at h
      cases hl : readClusterList fs rest with
      | error e => rw [hl] at h; cases h
      | ok ds =>
        rw [hl] at h
        injection h with h1
        subst h1
        unfold readClustersData
        rw [hr, ih ds hl]
        simp

/-- C5: when read_file finds a matching non-directory entry, a recorded file
size of zero yields an empty result at once — with no condition on the FAT or
the data region, so no chain walk or data-cluster read can influence it —
and a non-zero size yields the concatenation of the chain's clusters' raw
bytes in chain order, truncated to exactly the recorded size. -/
theorem read_file_content_spec (fuel : Nat) (fs : Fat32FileSystem)
    (path : List Nat) (dirCluster : Nat) (filename : List Nat)
    (entries : List DirectoryEntry) (entry : DirectoryEntry)
    (hparse : parse_path fuel fs path = some (.ok (dirCluster, filename)))
    (hdir : read_directory fuel fs dirCluster = some (.ok entries))
    (hfind : entries.find? (fileMatch filename) = some entry) :
    (entry.file_size = 0 → read_file fuel fs path = some (.ok [], fs))
    ∧ (∀ (chain : List Nat) (datas : List (List Nat)),
        entry.file_size ≠ 0 →
        clusterChainF fs.dev fs.boot fuel entry.first_cluster []
          = some (.ok chain) →
        readClusterList fs chain = .ok datas →
        read_file fuel fs path
          = some (.ok (datas.flatten.take entry.file_size), fs)) := by
  have hstep : read_file fuel fs path
      = (if entry.file_size = 0 then some (.ok [], fs)
        else
          match clusterChainF fs.dev fs.boot fuel entry.first_cluster [] with
          | none => none
          | some (.error e) => some (.error e, fs)
          | some (.ok clusters) =>
            match readClustersData fs clusters with
            | .error e => some (.error e, fs)
            | .ok data => some (.ok (data.take entry.file_size), fs)) := by
    unfold read_file
    rw [hparse]
    show (match read_directory fuel fs dirCluster with
      | none => none
      | some (Except.error e) => some (Except.error e, fs)
      | some (Except.ok entries) =>
        match entries.find? (fileMatch filename) with
        | none => some (Except.error Fat32Error.NotFound, fs)
        | some entry =>
          if entry.file_size = 0 then some (Except.ok [], fs)
          else
            match clusterChainF fs.dev fs.boot fuel entry.first_cluster [] with
            | none => none
            | some (Except.error e) => some (Except.error e, fs)
            | some (Except.ok clusters) =>
              match readClustersData fs clusters with
              | Except.error e => some (Except.error e, fs)
              | Except.ok data =>
                some (Except.ok (data.take entry.file_size), fs)) = _
    rw [hdir]
    show (match entries.find? (fileMatch filename) with
      | none => some (Except.error Fat32Error.NotFound, fs)
      | some entry =>
        if entry.file_size = 0 then some (Except.ok [], fs)
        else
          match clusterChainF fs.dev fs.boot fuel entry.first_cluster [] with
          | none => none
          | some (Except.error e) => some (Except.error e, fs)
          | some (Except.ok clusters) =>
            match readClustersData fs clusters with
            | Except.error e => some (Except.error e, fs)
            | Except.ok data =>
              some (Except.ok (data.take entry.file_size), fs)) = _
    rw [hfind]
  constructor
  · intro h0
    rw [hstep, if_pos h0]
  · intro chain datas hne hchain hdatas
    rw [hstep, if_neg hne, hchain]
    show (match readClustersData fs chain with
      | Except.error e => some (Except.error e, fs)
      | Except.ok data => some (Except.ok (data.take entry.file_size), fs)) = _
    rw [readClustersData_eq fs chain datas hdatas]

set_option maxRecDepth 100000 in
/-- Witness for read_file_content_spec on the concrete volume: reading A.TXT
(10 recorded bytes, chain [6]) from the root yields the cluster bytes
truncated to the 10 content bytes. -/
theorem read_file_content_spec_wit :
    parse_path 8 fsW pATXT = some (.ok (2, pATXT))
      ∧ read_directory 8 fsW 2 = some (.ok [docsEntryW, atxtEntryW])
      ∧ [docsEntryW, atxtEntryW].find? (fileMatch pATXT) = some atxtEntryW
      ∧ atxtEntryW.file_size = 10
      ∧ clusterChainF devW bsW 8 6 [] = some (.ok [6])
      ∧ readClusterList fsW [6] = .ok [dataClusterBytesW]
      ∧ read_file 8 fsW pATXT = some (.ok dataW, fsW) := by
  refine ⟨by decide, by decide, by decide, by decide, by decide, by decide, ?_⟩
  have h := (read_file_content_spec 8 fsW pATXT 2 pATXT
    [docsEntryW, atxtEntryW] atxtEntryW (by decide) (by decide) (by decide)).2
    [6] [dataClusterBytesW] (by decide) (by decide) (by decide)
  rw [h]
  rw [show ([dataClusterBytesW].flatten.take atxtEntryW.file_size) = dataW from by decide]

/-- C6: the current-directory cluster is mutated only by a successful
change_dir: a failing change_dir leaves the state unchanged, and list_dir and
read_file leave the state unchanged whether they succeed or fail. -/
theorem current_dir_frame (fuel : Nat) (fs : Fat32FileSystem)
    (path : List Nat) (path? : Option (List Nat)) :
    (∀ e fs1, change_dir fuel fs path = some (.error e, fs1) → fs1 = fs)
    ∧ (∀ r fs1, list_dir fuel fs path? = some (r, fs1) → fs1 = fs)
    ∧ (∀ r fs1, read_file fuel fs path = some (r, fs1) → fs1 = fs) := by
  refine ⟨?_, ?_, ?_⟩
  · intro e fs1 h
    unfold change_dir at h
    split at h
    · cases h
    · simp_all
    · split at h
      · cases h
      · simp_all
      · simp_all
  · intro r fs1 h
    have hmap : ∀ (o : Option (Except Fat32Error (List DirectoryEntry)))
        (r1 : Except Fat32Error (List DirectoryEntry)) (fs2 : Fat32FileSystem),
        Option.map (fun x => (x, fs)) o = some (r1, fs2) → fs2 = fs := by
      intro o r1 fs2 ho
      cases o with
      | none => cases ho
      | some v =>
        injection ho with h1
        cases h1
        rfl
    unfold list_dir at h
    split at h
    · split at h
      · cases h
      · simp_all
      · exact hmap _ _ _ h
    · exact hmap _ _ _ h
  · intro r fs1 h
    unfold read_file at h
    iterate 6 (all_goals (try split at h))
    all_goals simp_all

set_option maxRecDepth 100000 in
/-- Witness for current_dir_frame on the concrete volume: a failing change_dir
(no entry named Z), a successful list_dir and a successful read_file all leave
the state untouched. -/
theorem current_dir_frame_wit :
    change_dir 8 fsW pZ = some (.error .NotFound, fsW)
      ∧ list_dir 8 fsW none = some (.ok [docsEntryW, atxtEntryW], fsW)
      ∧ read_file 8 fsW pATXT = some (.ok dataW, fsW)
      ∧ fsW = fsW := by
  have h1 : change_dir 8 fsW pZ = some (.error .NotFound, fsW) := by rfl
  refine ⟨h1, by rfl, by rfl, ?_⟩
  exact (current_dir_frame 8 fsW pZ none).1 .NotFound fsW h1

set_option maxRecDepth 100000 in
/-- C4 (code slip, evaluated at the failing input): for an absolute
single-component path such as /A.TXT, parse_path splits at the slash at
index 0, leaving an empty directory part, and maps that empty part to the
*current* directory instead of the root: with the current directory at DOCS
(cluster 5) the leaf A.TXT is looked up in cluster 5, not root cluster 2, so
read_file of /A.TXT fails with NotFound even though A.TXT exists in the root
— while the very same call with the current directory at the root succeeds.
The spec's path-resolution rule (a leading slash selects the root cluster
regardless of the current directory) is the evident intent, which
resolve_path itself implements for multi-component absolute paths. -/
theorem parse_path_absolute_leaf_bug :
    fsW5.boot.root_cluster = 2
      ∧ fsW5.currentDirectory = 5
      ∧ parse_path 8 fsW5 pSlashATXT = some (.ok (5, pATXT))
      ∧ read_file 8 fsW5 pSlashATXT = some (.error .NotFound, fsW5)
      ∧ read_file 8 fsW pSlashATXT = some (.ok dataW, fsW) := by
  exact ⟨rfl, rfl, by rfl, by rfl, by rfl⟩

/-- Device well-behavedness for the amended C9 statement: the device itself
never reports NotADirectory (per the device contract it fails with IoError). -/
def DevOk (dev : Device) : Prop :=
  ∀ s e, dev s = .error e → e ≠ .NotADirectory

/-- Helper: a failing buffered sector read carries a device error kind. -/
theorem readSectorBuf_nnd (dev : Device) (n s : Nat) (e : Fat32Error)
    (hdev : DevOk dev) (h : readSectorBuf dev n s = .error e) :
    e ≠ .NotADirectory := by
  unfold readSectorBuf at h
  cases hs : dev s with
  | error e1 =>
    rw [hs] at h
    injection h with h1
    subst h1
    exact hdev s _ hs
  | ok d =>
    rw [hs] at h
    cases h

/-- Helper: next_cluster produces only InvalidCluster, EndOfChain or a
device error kind. -/
theorem nextClusterPure_nnd (dev : Device) (bs : BootSector) (c : Nat)
    (e : Fat32Error) (hdev : DevOk dev)
    (h : nextClusterPure dev bs c = .error e) :
    e ≠ .NotADirectory := by
  simp only [nextClusterPure] at h
  split at h
  · injection h with h1
    subst h1
    decide
  · split at h
    · rename_i e1 heq
      injection h with h1
      subst h1
      exact readSectorBuf_nnd dev _ _ _ hdev heq
    · unfold classifyFatEntry at h
      split at h
      · injection h with h1
        subst h1
        decide
      · split at h
        · injection h with h1
          subst h1
          decide
        · cases h

/-- Helper: cluster_chain errors are next_cluster errors other than
EndOfChain. -/
theorem clusterChainF_nnd (dev : Device) (bs : BootSector) (hdev : DevOk dev) :
    ∀ (fuel c : Nat) (acc : List Nat) (e : Fat32Error),
      clusterChainF dev bs fuel c acc = some (.error e) →
      e ≠ .NotADirectory := by
  intro fuel
  induction fuel with
  | zero =>
    intro c acc e h
    cases h
  | succ n ih =>
    intro c acc e h
    unfold clusterChainF at h
    cases hn : nextClusterPure dev bs c with
    | ok next =>
      rw [hn] at h
      exact ih next (acc ++ [c]) e h
    | error e1 =>
      rw [hn] at h
      cases e1 <;> simp at h
      all_goals subst h
      all_goals first
        | decide
        | exact nextClusterPure_nnd dev bs c _ hdev hn

/-- Helper: cluster-data reads fail only with device error kinds. -/
theorem readSectorsFrom_nnd (dev : Device) (n base : Nat) (hdev : DevOk dev) :
    ∀ (count i : Nat) (e : Fat32Error),
      readSectorsFrom dev n base i count = .error e → e ≠ .NotADirectory := by
  intro count
  induction count with
  | zero =>
    intro i e h
    cases h
  | succ m ih =>
    intro i e h
    unfold readSectorsFrom at h
    cases hr : readSectorBuf dev n ((base + i) % U32) with
    | error e1 =>
      rw [hr] at h
      injection h with h1
      subst h1
      exact readSectorBuf_nnd dev n _ _ hdev hr
    | ok d =>
      rw [hr] at h
      cases hl : readSectorsFrom dev n base (i + 1) m with
      | error e1 =>
        rw [hl] at h
        injection h with h1
        subst h1
        exact ih (i + 1) _ hl
      | ok rest =>
        rw [hl] at h
        cases h

/-- Helper: read_cluster fails only with device error kinds. -/
theorem read_cluster_nnd (fs : Fat32FileSystem) (cluster : Nat)
    (e : Fat32Error) (hdev : DevOk fs.dev)
    (h : read_cluster fs cluster = .error e) : e ≠ .NotADirectory := by
  exact readSectorsFrom_nnd fs.dev fs.boot.bytes_per_sector _ hdev _ _ _ h

/-- Helper: the enumeration loop fails only through read_cluster. -/
theorem scanClusters_nnd (fs : Fat32FileSystem) (hdev : DevOk fs.dev) :
    ∀ (clusters : List Nat) (acc : List DirectoryEntry) (e : Fat32Error),
      scanClusters fs clusters acc = .error e → e ≠ .NotADirectory := by
  intro clusters
  induction clusters with
  | nil =>
    intro acc e h
    cases h
  | cons c rest ih =>
    intro acc e h
    unfold scanClusters at h
    cases hr : read_cluster fs c with
    | error e1 =>
      rw [hr] at h
      injection h with h1
      subst h1
      exact read_cluster_nnd fs c _ hdev hr
    | ok d =>
      rw [hr] at h
      have h2 : (match scanChunks (chunksExact32 d) acc with
        | Sum.inl finished => Except.ok finished
        | Sum.inr acc1 => scanClusters fs rest acc1) = Except.error e := h
      cases hs : scanChunks (chunksExact32 d) acc with
      | inl fin =>
        rw [hs] at h2
        cases h2
      | inr acc1 =>
        rw [hs] at h2
        exact ih acc1 e h2

/-- Helper: read_directory fails only through the chain walk or
read_cluster, never with NotADirectory. -/
theorem read_directory_nnd (fuel : Nat) (fs : Fat32FileSystem) (cluster : Nat)
    (e : Fat32Error) (hdev : DevOk fs.dev)
    (h : read_directory fuel fs cluster = some (.error e)) :
    e ≠ .NotADirectory := by
  unfold read_directory at h
  cases hc : clusterChainF fs.dev fs.boot fuel cluster [] with
  | none =>
    rw [hc] at h
    cases h
  | some r =>
    rw [hc] at h
    cases r with
    | error e1 =>
      injection h with h1
      injection h1 with h2
      subst h2
      exact clusterChainF_nnd fs.dev fs.boot hdev fuel cluster [] _ hc
    | ok clusters =>
      injection h with h1
      exact scanClusters_nnd fs hdev clusters [] e h1

/-- Helper: find_parent fails with NotFound or a read_directory error,
never with NotADirectory. -/
theorem find_parent_nnd (fuel : Nat) (fs : Fat32FileSystem) (cluster : Nat)
    (e : Fat32Error) (hdev : DevOk fs.dev)
    (h : find_parent fuel fs cluster = some (.error e)) :
    e ≠ .NotADirectory := by
  unfold find_parent at h
  cases hd : read_directory fuel fs cluster with
  | none =>
    rw [hd] at h
    cases h
  | some r =>
    rw [hd] at h
    cases r with
    | error e1 =>
      injection h with h1
      injection h1 with h2
      subst h2
      exact read_directory_nnd fuel fs cluster _ hdev hd
    | ok entries =>
      have h2 : (match entries.find? (fun x => x.is_dot_dot) with
        | some x => some (Except.ok (if x.first_cluster = 0
            then fs.boot.root_cluster else x.first_cluster))
        | none => some (Except.error Fat32Error.NotFound))
          = some (Except.error e) := h
      cases hf : entries.find? (fun x => x.is_dot_dot) with
      | some x =>
        rw [hf] at h2
        injection h2 with h3
        injection h3
      | none =>
        rw [hf] at h2
        injection h2 with h3
        injection h3 with h4
        subst h4
        decide

/-- Helper: component resolution fails with NotFound or a propagated
enumeration error, never with NotADirectory. -/
theorem resolveComponents_nnd (fuel : Nat) (fs : Fat32FileSystem)
    (hdev : DevOk fs.dev) :
    ∀ (comps : List (List Nat)) (current : Nat) (e : Fat32Error),
      resolveComponents fuel fs comps current = some (.error e) →
      e ≠ .NotADirectory := by
  intro comps
  induction comps with
  | nil =>
    intro current e h
    cases h
  | cons comp rest ih =>
    intro current e h
    unfold resolveComponents at h
    split at h
    · exact ih current e h
    · split at h
      · exact ih current e h
      · split at h
        · cases hp : find_parent fuel fs current with
          | none =>
            rw [hp] at h
            cases h
          | some r =>
            rw [hp] at h
            cases r with
            | error e1 =>
              injection h with h1
              injection h1 with h2
              subst h2
              exact find_parent_nnd fuel fs current _ hdev hp
            | ok parent =>
              exact ih parent e h
        · cases hd : read_directory fuel fs current with
          | none =>
            rw [hd] at h
            cases h
          | some r =>
            rw [hd] at h
            cases r with
            | error e1 =>
              injection h with h1
              injection h1 with h2
              subst h2
              exact read_directory_nnd fuel fs current _ hdev hd
            | ok entries =>
              have h2 : (match entries.find? (dirComponentMatch comp) with
                | none => some (Except.error Fat32Error.NotFound)
                | some x => resolveComponents fuel fs rest x.first_cluster)
                  = some (Except.error e) := h
              cases hf : entries.find? (dirComponentMatch comp) with
              | none =>
                rw [hf] at h2
                injection h2 with h3
                injection h3 with h4
                subst h4
                decide
              | some x =>
                rw [hf] at h2
                exact ih x.first_cluster e h2

/-- Helper: resolve_path never fails with NotADirectory. -/
theorem resolve_path_nnd (fuel : Nat) (fs : Fat32FileSystem) (path : List Nat)
    (e : Fat32Error) (hdev : DevOk fs.dev)
    (h : resolve_path fuel fs path = some (.error e)) :
    e ≠ .NotADirectory := by
  simp only [resolve_path] at h
  split at h <;> split at h <;>
    first
      | cases h
      | exact resolveComponents_nnd fuel fs hdev _ _ e h

/-- C9 amended: when the target of change_dir or list_dir lacks the
directory attribute or fails enumeration, the operation fails, but never
with the NotADirectory error kind (assuming the device itself never reports
NotADirectory): a non-directory target fails as NotFound inside path
resolution and enumeration failures propagate their underlying error; the
driver never constructs NotADirectory. -/
theorem dir_op_error_kind_amended (fuel : Nat) (fs : Fat32FileSystem)
    (path : List Nat) (path? : Option (List Nat)) (hdev : DevOk fs.dev) :
    (∀ e fs1, change_dir fuel fs path = some (.error e, fs1) →
        e ≠ .NotADirectory)
    ∧ (∀ e fs1, list_dir fuel fs path? = some (.error e, fs1) →
        e ≠ .NotADirectory) := by
  have hmap : ∀ (c : Nat) (e : Fat32Error) (fs1 : Fat32FileSystem),
      Option.map (fun x => (x, fs)) (read_directory fuel fs c)
        = some (.error e, fs1) → e ≠ .NotADirectory := by
    intro c e fs1 hm
    cases hd : read_directory fuel fs c with
    | none =>
      rw [hd] at hm
      cases hm
    | some r =>
      rw [hd] at hm
      injection hm with h1
      injection h1 with h2 h3
      subst h2
      exact read_directory_nnd fuel fs c e hdev hd
  constructor
  · intro e fs1 h
    unfold change_dir at h
    cases hr : resolve_path fuel fs path with
    | none =>
      rw [hr] at h
      cases h
    | some r =>
      rw [hr] at h
      cases r with
      | error e1 =>
        injection h with h1
        injection h1 with h2 h3
        injection h2 with h4
        subst h4
        exact resolve_path_nnd fuel fs path _ hdev hr
      | ok cluster =>
        have h2 : (match read_directory fuel fs cluster with
          | none => none
          | some (Except.error err) => some (Except.error err, fs)
          | some (Except.ok _) =>
            some (Except.ok (), { fs with currentDirectory := cluster }))
            = some (Except.error e, fs1) := h
        cases hd : read_directory fuel fs cluster with
        | none =>
          rw [hd] at h2
          cases h2
        | some r2 =>
          rw [hd] at h2
          cases r2 with
          | error e1 =>
            injection h2 with h3
            injection h3 with h4 h5
            injection h4 with h6
            subst h6
            exact read_directory_nnd fuel fs cluster _ hdev hd
          | ok entries =>
            injection h2 with h3
            injection h3 with h4 h5
            injection h4
  · intro e fs1 h
    unfold list_dir at h
    cases path? with
    | none => exact hmap fs.currentDirectory e fs1 h
    | some p =>
      have hm : (match resolve_path fuel fs p with
        | none => none
        | some (Except.error err) => some (Except.error err, fs)
        | some (Except.ok c) =>
          Option.map (fun r => (r, fs)) (read_directory fuel fs c))
          = some (Except.error e, fs1) := h
      cases hr : resolve_path fuel fs p with
      | none =>
        rw [hr] at hm
        cases hm
      | some r =>
        rw [hr] at hm
        cases r with
        | error e1 =>
          injection hm with h1
          injection h1 with h2 h3
          injection h2 with h4
          subst h4
          exact resolve_path_nnd fuel fs p _ hdev hr
        | ok cluster => exact hmap cluster e fs1 hm

set_option maxRecDepth 100000 in
/-- C9 counterexample: change_dir on the plain file A.TXT — a target that
lacks the directory attribute — fails with NotFound (the component lookup of
resolve_path only matches directory records), not with NotADirectory. -/
theorem change_dir_not_a_directory_cex :
    change_dir 8 fsW pATXT = some (.error .NotFound, fsW)
      ∧ Fat32Error.NotFound ≠ Fat32Error.NotADirectory := by
  exact ⟨by rfl, by decide⟩

set_option maxRecDepth 100000 in
/-- Witness for dir_op_error_kind_amended: the concrete device never errors,
and the NotFound failure of change_dir on a file target is indeed not
NotADirectory. -/
theorem dir_op_error_kind_amended_wit :
    DevOk devW
      ∧ change_dir 8 fsW pATXT = some (.error .NotFound, fsW)
      ∧ Fat32Error.NotFound ≠ Fat32Error.NotADirectory := by
  have hdev : DevOk devW := by
    intro s e h
    unfold devW at h
    split at h
    · cases h
    · split at h
      · cases h
      · split at h
        · cases h
        · split at h
          · cases h
          · cases h
  refine ⟨hdev, by rfl, ?_⟩
  exact (dir_op_error_kind_amended 8 fsW pATXT none hdev).1 .NotFound fsW (by rfl)

end Fat32
